import Mathlib

/-!
Verification of the book-tracker cloud functions (functions/src/index.ts).

The source is a set of Firebase cloud functions: a daily batch job
(`dailyBookSearch`) that searches marketplaces for each tracked book, an
aggregator (`searchAllPlatforms`) fanning out to two connectors
(`searchCraigslist`, `searchReddit`), a manual search endpoint (`searchBook`),
a mark-read endpoint (`markNotificationRead`) and a weekly retention sweep
(`cleanupOldNotifications`).

The shallow embedding below translates each function's pure logic into Lean.
Network and database effects are made explicit: a connector's network call
becomes an `Except Unit` parameter holding either the parsed response or the
thrown error, timestamps become `Int` milliseconds, and the Firestore state
becomes an explicit record threaded through the endpoint functions.
JavaScript string operations (`toLowerCase`, `includes`, `split(' ')`,
`startsWith`) are modelled over the underlying character lists so that every
definition evaluates inside the kernel.
-/

namespace BookTracker

/-! ## Data model (interfaces SearchResult / Book / User, lines 19-40) -/

/-- `interface SearchResult` from the source: title, price (display string),
source label, optional condition, link, optional seller. -/
structure SearchResult where
  title : String
  price : String
  source : String
  condition : Option String := none
  link : String
  seller : Option String := none
  deriving Repr, DecidableEq

/-! ## JavaScript string primitives, modelled over character lists -/

/-- JS `hay.includes(needle)`: substring occurrence test. -/
def strIncl (hay needle : String) : Bool :=
  (List.range (hay.data.length + 1)).any fun i =>
    needle.data.isPrefixOf (hay.data.drop i)

/-- JS `String.prototype.toLowerCase` (ASCII-relevant part). -/
def jsLower (s : String) : String :=
  String.mk (s.data.map Char.toLower)

/-- JS `s.split(' ')`: split on every single space character; empty segments
are kept (`"a  b".split(' ') = ["a", "", "b"]`, `"".split(' ') = [""]`). -/
def splitSpace (s : List Char) : List String :=
  match s with
  | [] => [""]
  | c :: rest =>
    if c = ' ' then "" :: splitSpace rest
    else
      match splitSpace rest with
      | [] => [String.mk [c]]
      | h :: t => (String.mk (c :: h.data)) :: t

/-- JS `s.startsWith(p)`. -/
def jsStarts (s p : String) : Bool :=
  p.data.isPrefixOf s.data

/-! ## Aggregator deduplication (searchAllPlatforms, lines 178-182)

The source deduplicates the concatenated connector results with

  `flatResults.filter((result, index, self) =>
     index === self.findIndex(r => r.link === result.link))`

`findIndex` returns the index of the first element with the same `link`, so
the element at `index` is kept exactly when no earlier element of the list
has an equal `link`.  `keepFirstByLink seen l` embeds this: `seen` is the set
of links occurring strictly before `l` in the full list (for the whole list,
`seen = []`), and an element is kept iff its link has not been seen. -/

def keepFirstByLink (seen : List String) : List SearchResult → List SearchResult
  | [] => []
  | r :: rs =>
    if r.link ∈ seen then keepFirstByLink seen rs
    else r :: keepFirstByLink (r.link :: seen) rs

/-- The dedupe step applied to the whole concatenated list. -/
def dedupeByLink (l : List SearchResult) : List SearchResult :=
  keepFirstByLink [] l

theorem keepFirstByLink_sublist (seen : List String) (l : List SearchResult) :
    List.Sublist (keepFirstByLink seen l) l := by
  induction l generalizing seen with
  | nil => simp [keepFirstByLink]
  | cons r rs ih =>
    rw [keepFirstByLink]
    split
    · exact (ih seen).trans (List.sublist_cons_self r rs)
    · exact (ih (r.link :: seen)).cons₂ r

/-- Every kept element's link was unseen, and the kept element is exactly the
first element of the list carrying its link (earliest occurrence wins with
all its field values). -/
theorem keepFirstByLink_spec (seen : List String) (l : List SearchResult) :
    ∀ s ∈ keepFirstByLink seen l,
      s.link ∉ seen ∧ l.find? (fun t => t.link == s.link) = some s := by
  induction l generalizing seen with
  | nil => intro s hs; simp [keepFirstByLink] at hs
  | cons r rs ih =>
    intro s hs
    rw [keepFirstByLink] at hs
    by_cases hc : r.link ∈ seen
    · rw [if_pos hc] at hs
      obtain ⟨h1, h2⟩ := ih seen s hs
      have hb : (r.link == s.link) = false :=
        beq_eq_false_iff_ne.mpr (fun h => h1 (h ▸ hc))
      exact ⟨h1, by simp only [List.find?, hb]; exact h2⟩
    · rw [if_neg hc] at hs
      rcases List.mem_cons.mp hs with rfl | hs'
      · exact ⟨hc, by simp [List.find?]⟩
      · obtain ⟨h1, h2⟩ := ih (r.link :: seen) s hs'
        have hsl : s.link ∉ seen := fun h => h1 (List.mem_cons_of_mem _ h)
        have hb : (r.link == s.link) = false :=
          beq_eq_false_iff_ne.mpr
            (fun h => h1 (h ▸ List.mem_cons_self r.link seen))
        exact ⟨hsl, by simp only [List.find?, hb]; exact h2⟩

/-- The deduplicated list has pairwise distinct links. -/
theorem keepFirstByLink_links_nodup (seen : List String) (l : List SearchResult) :
    ((keepFirstByLink seen l).map SearchResult.link).Nodup := by
  induction l generalizing seen with
  | nil => simp [keepFirstByLink]
  | cons r rs ih =>
    rw [keepFirstByLink]
    split
    · exact ih seen
    · simp only [List.map_cons, List.nodup_cons]
      refine ⟨?_, ih (r.link :: seen)⟩
      intro hmem
      obtain ⟨s, hs, hlink⟩ := List.mem_map.mp hmem
      have h1 := (keepFirstByLink_spec (r.link :: seen) rs s hs).1
      exact h1 (hlink ▸ List.mem_cons_self r.link seen)

/-- Every link of the input survives: either it was already seen, or some
kept element carries it. -/
theorem keepFirstByLink_covers (seen : List String) (l : List SearchResult) :
    ∀ r ∈ l, r.link ∈ seen ∨ ∃ s ∈ keepFirstByLink seen l, s.link = r.link := by
  induction l generalizing seen with
  | nil => intro r hr; simp at hr
  | cons a rs ih =>
    intro r hr
    rcases List.mem_cons.mp hr with rfl | hr'
    · by_cases hc : r.link ∈ seen
      · exact Or.inl hc
      · refine Or.inr ⟨r, ?_, rfl⟩
        rw [keepFirstByLink, if_neg hc]
        exact List.mem_cons_self r _
    · by_cases hc : a.link ∈ seen
      · rcases ih seen r hr' with h | ⟨s, hs, he⟩
        · exact Or.inl h
        · exact Or.inr ⟨s, by rw [keepFirstByLink, if_pos hc]; exact hs, he⟩
      · rcases ih (a.link :: seen) r hr' with h | ⟨s, hs, he⟩
        · rcases List.mem_cons.mp h with he | hseen
          · refine Or.inr ⟨a, ?_, he.symm⟩
            rw [keepFirstByLink, if_neg hc]
            exact List.mem_cons_self a _
          · exact Or.inl hseen
        · refine Or.inr ⟨s, ?_, he⟩
          rw [keepFirstByLink, if_neg hc]
          exact List.mem_cons_of_mem a hs

/-- A list whose links are already pairwise distinct (and unseen) passes
through the dedupe step unchanged. -/
theorem keepFirstByLink_eq_self (seen : List String) (l : List SearchResult)
    (hnd : (l.map SearchResult.link).Nodup)
    (hse : ∀ r ∈ l, r.link ∉ seen) : keepFirstByLink seen l = l := by
  induction l generalizing seen with
  | nil => rfl
  | cons r rs ih =>
    rw [keepFirstByLink, if_neg (hse r (List.mem_cons_self r rs))]
    simp only [List.map_cons, List.nodup_cons] at hnd
    refine congrArg (r :: ·) (ih (r.link :: seen) hnd.2 ?_)
    intro s hs hmem
    rcases List.mem_cons.mp hmem with he | hseen
    · exact hnd.1 (he ▸ List.mem_map_of_mem SearchResult.link hs)
    · exact hse s (List.mem_cons_of_mem r hs) hseen

theorem dedupeByLink_eq_self (l : List SearchResult)
    (hnd : (l.map SearchResult.link).Nodup) : dedupeByLink l = l :=
  keepFirstByLink_eq_self [] l hnd (by intro r _ h; simp at h)

/-! ## Text-search connector (searchCraigslist, lines 213-259)

The network call (`axios.get`, 15s timeout, 3 redirects, spoofed user agent)
and the cheerio parse are external; the connector's logic is a function of
the parsed `.result-row` elements.  A thrown request/parse error is the
`Except.error` case, which the connector's own `catch` maps to `[]`.  The
`$('.result-row').each` callback returns `false` at `index >= 8`, which
stops cheerio's iteration, so exactly the first 8 rows are examined. -/

/-- One parsed `.result-row`: the texts of `.result-title`, `.result-price`,
`.result-hood` and the `href` attribute of `.result-title` (which cheerio
reports as `undefined` when absent, hence `Option`). -/
structure ResultRow where
  title : String
  price : String
  link : Option String
  location : String
  deriving Repr, DecidableEq

/-- The relevance check of lines 238-242: keep a row iff the lowercased title
contains "book", "novel", "textbook", or the lowercase of some token of
`searchQuery.split(' ')`. -/
def relevantTitle (searchQuery title : String) : Bool :=
  let titleLower := jsLower title
  strIncl titleLower "book" || strIncl titleLower "novel" ||
    strIncl titleLower "textbook" ||
    (splitSpace searchQuery.data).any fun word => strIncl titleLower (jsLower word)

/-- Field mapping of lines 244-250: empty price falls back to the sentinel
"Price not listed", the source label appends the location when present,
condition is fixed to "Used", and a relative link is prefixed with the site
origin (an absent `href` is the JS string `"undefined"` interpolated into
the template literal). -/
def rowResult (searchQuery : String) (row : ResultRow) : Option SearchResult :=
  if relevantTitle searchQuery row.title then
    some { title := row.title
           price := if row.price = "" then "Price not listed" else row.price
           source := "Craigslist" ++ (if row.location = "" then "" else " " ++ row.location)
           condition := some "Used"
           link :=
             match row.link with
             | some l => if jsStarts l "http" then l else "https://craigslist.org" ++ l
             | none => "https://craigslist.org" ++ "undefined"
           seller := none }
  else none

/-- `searchCraigslist`: on a thrown request error the `catch` returns `[]`;
otherwise the first 8 parsed rows are filtered and mapped. -/
def searchCraigslist (searchQuery : String) (response : Except Unit (List ResultRow)) :
    List SearchResult :=
  match response with
  | .error _ => []
  | .ok rows => (rows.take 8).filterMap (rowResult searchQuery)

/-! ## Forum-search connector (searchReddit, lines 261-324)

One GET per search-term variant; each response either throws (aborting the
whole connector into its `catch`, which returns `[]`), or has no
`data.data.children` (the term contributes nothing), or yields a list of
posts. -/

/-- The fields of `post.data` the connector reads.  `selftext` is `Option`
because the source defends it with `postData.selftext || ''`. -/
structure RedditPost where
  title : String
  selftext : Option String
  over_18 : Bool
  subreddit_type : String
  subreddit : String
  permalink : String
  author : String
  deriving Repr, DecidableEq

/-- The three literal query phrasings of lines 263-267. -/
def searchTerms (searchQuery : String) : List String :=
  [searchQuery ++ " for sale", "selling " ++ searchQuery, searchQuery ++ " book sale"]

/-- First match of the regex `\$(\d+(?:\.\d{2})?)` over the given text,
returning capture group 1: scan for a `$` followed by at least one digit;
the digits are taken greedily, then optionally a dot with two more digits. -/
def priceCapture : List Char → Option String
  | [] => none
  | c :: rest =>
    if c = '$' then
      let ds := rest.takeWhile Char.isDigit
      if ds.isEmpty then priceCapture rest
      else
        match rest.dropWhile Char.isDigit with
        | '.' :: a :: b :: _ =>
          if a.isDigit && b.isDigit then some (String.mk (ds ++ ['.', a, b]))
          else some (String.mk ds)
        | _ => some (String.mk ds)
    else priceCapture rest

/-- The post filter of lines 288-294: the combined lowercased title+body must
contain a sale/price indicator, the post must not be flagged `over_18`, and
the subreddit must be `public`. -/
def sellingPost (p : RedditPost) : Bool :=
  let text := p.selftext.getD ""
  let combined := jsLower (p.title ++ " " ++ text)
  (strIncl combined "for sale" || strIncl combined "selling" ||
      strIncl combined "sale" || strIncl combined "$") &&
    !p.over_18 && (p.subreddit_type == "public")

/-- Normalization of a kept post (lines 296-305). -/
def postResult (p : RedditPost) : Option SearchResult :=
  if sellingPost p then
    some { title := p.title
           price :=
             match priceCapture (p.title ++ " " ++ p.selftext.getD "").data with
             | some d => "$" ++ d
             | none => "See post for price"
           source := "Reddit r/" ++ p.subreddit
           condition := none
           link := "https://reddit.com" ++ p.permalink
           seller := some ("/u/" ++ p.author) }
  else none

/-- The accumulation loop over the term variants: the first thrown request
error aborts into the connector's `catch` (discarding everything); a
response without `children` contributes nothing; otherwise the term's kept
posts are appended in order. -/
def collectRedditResults :
    List (Except Unit (Option (List RedditPost))) → Except Unit (List SearchResult)
  | [] => .ok []
  | .error e :: _ => .error e
  | .ok none :: rest => collectRedditResults rest
  | .ok (some posts) :: rest =>
    match collectRedditResults rest with
    | .error e => .error e
    | .ok tail => .ok (posts.filterMap postResult ++ tail)

/-- `searchReddit`: one response per term variant (in term order); on any
thrown error the `catch` returns `[]`, otherwise the accumulated results are
deduplicated by link and capped at 5 (`uniqueResults.slice(0, 5)`). -/
def searchReddit (responses : List (Except Unit (Option (List RedditPost)))) :
    List SearchResult :=
  match collectRedditResults responses with
  | .error _ => []
  | .ok results => (dedupeByLink results).take 5

/-! ## Aggregator (searchAllPlatforms, lines 154-191)

The `Promise.all` fan-out awaits both connectors with `.catch(err => [])`
attached, so a rejected connector promise contributes `[]` and the other
connector's list is untouched; the lists are then concatenated in connector
invocation order (Craigslist first, Reddit second) and deduplicated. -/

/-- `promise.catch(err => [])`: the resolved list, or `[]` on rejection. -/
def caughtList (outcome : Except Unit (List SearchResult)) : List SearchResult :=
  match outcome with
  | .ok l => l
  | .error _ => []

/-- `searchAllPlatforms`, as a function of each connector promise's
outcome. -/
def searchAllPlatforms (craigslistOutcome redditOutcome : Except Unit (List SearchResult)) :
    List SearchResult :=
  dedupeByLink (caughtList craigslistOutcome ++ caughtList redditOutcome)

/-! ## Daily batch job, per-book step (dailyBookSearch, lines 67-99)

For one book the job: compares `lastSearched` (absent or a timestamp, here
`Int` milliseconds) against `Date.now() - 6h` and `continue`s when
`lastSearched > sixHoursAgo`; otherwise runs, inside a `try` caught at line
96, the sequence `searchAllPlatforms` / (if nonempty) `sendEmailToUser` then
`saveNotifications` / the `lastSearched` update.  `sendEmailToUser` and
`saveNotifications` both rethrow their errors (lines 470 and 501), so a
failure in either lands in the per-book `catch`, which only logs — every
statement after the failing await, including the `lastSearched` update, is
skipped.  The three awaited steps are parameters recording whether each
resolved or threw. -/

def sixHoursMs : Int := 6 * 60 * 60 * 1000

/-- The throttle test of lines 70-77: skip iff `lastSearched` is present and
strictly later than `now - 6h`. -/
def shouldSkip (lastSearched : Option Int) (now : Int) : Bool :=
  match lastSearched with
  | some t => decide (now - sixHoursMs < t)
  | none => false

/-- Observable effects of processing one book. -/
structure ProcessOutcome where
  invokedSearch : Bool
  emailSent : Bool
  persisted : List SearchResult
  lastSearched : Option Int
  deriving Repr, DecidableEq

/-- The body of the per-book loop.  `searchStep` is the outcome of the
`searchAllPlatforms` await, `emailStep results` of the `sendEmailToUser`
await, `saveStep results` of the `saveNotifications` batch commit. -/
def processBook (lastSearched : Option Int) (now : Int)
    (searchStep : Except Unit (List SearchResult))
    (emailStep : List SearchResult → Except Unit Unit)
    (saveStep : List SearchResult → Except Unit Unit) : ProcessOutcome :=
  if shouldSkip lastSearched now then
    { invokedSearch := false, emailSent := false, persisted := [],
      lastSearched := lastSearched }
  else
    match searchStep with
    | .error _ =>
      { invokedSearch := true, emailSent := false, persisted := [],
        lastSearched := lastSearched }
    | .ok results =>
      if results.length > 0 then
        match emailStep results with
        | .error _ =>
          { invokedSearch := true, emailSent := false, persisted := [],
            lastSearched := lastSearched }
        | .ok _ =>
          match saveStep results with
          | .error _ =>
            { invokedSearch := true, emailSent := true, persisted := [],
              lastSearched := lastSearched }
          | .ok _ =>
            { invokedSearch := true, emailSent := true, persisted := results,
              lastSearched := some now }
      else
        { invokedSearch := true, emailSent := false, persisted := [],
          lastSearched := some now }

/-! ## Retention sweep (cleanupOldNotifications, lines 506-536)

The sweep queries notifications with `createdAt < thirtyDaysAgo`,
`limit(500)`, and deletes every fetched document in a single batch commit.
The store is a list of records; the query filters it and takes the first
500 matches. -/

structure NotificationRec where
  id : Nat
  createdAt : Int
  deriving Repr, DecidableEq

def thirtyDaysMs : Int := 30 * 24 * 60 * 60 * 1000

/-- One sweep invocation: returns the store after the batch delete and the
list of deleted records.  The `oldNotifications.empty` early return leaves
the store untouched. -/
def cleanupOldNotifications (now : Int) (store : List NotificationRec) :
    List NotificationRec × List NotificationRec :=
  let fetched :=
    (store.filter fun n => decide (n.createdAt < now - thirtyDaysMs)).take 500
  if fetched.isEmpty then (store, [])
  else (store.filter fun n => !(fetched.any fun d => d.id == n.id), fetched)

/-! ## HTTPS endpoints (searchBook lines 112-130, markNotificationRead
lines 133-152)

Both callable endpoints check `context.auth` first.  The Firestore state is
threaded explicitly so that the presence or absence of writes is part of
each endpoint's meaning. -/

/-- The three `HttpsError` codes the source throws. -/
inductive HttpsErrorCode where
  | unauthenticated
  | invalidArgument
  | internal
  deriving Repr, DecidableEq

/-- A stored notification document (the fields `markNotificationRead`
touches). -/
structure StoredNotification where
  id : String
  userId : String
  read : Bool
  readAt : Option Int
  deriving Repr, DecidableEq

/-- A stored book document (the field the batch job updates). -/
structure BookRec where
  id : String
  lastSearched : Option Int
  deriving Repr, DecidableEq

/-- The Firestore collections the endpoints can reach. -/
structure Db where
  books : List BookRec
  notifications : List StoredNotification
  deriving Repr, DecidableEq

/-- `searchBook`: rejects a missing `context.auth` with `unauthenticated`,
then a falsy `bookTitle` (absent or empty string) with `invalid-argument`,
then runs the aggregator and returns `{ results, searchedAt }`.  The body
contains no Firestore write, so the state comes back unchanged in every
branch. -/
def searchBook (auth : Bool) (bookTitle authorArg : Option String) (now : Int)
    (craigslistOutcome redditOutcome : Except Unit (List SearchResult)) (db : Db) :
    Except HttpsErrorCode (List SearchResult × Int) × Db :=
  if !auth then (.error .unauthenticated, db)
  else
    match bookTitle with
    | none => (.error .invalidArgument, db)
    | some t =>
      if t = "" then (.error .invalidArgument, db)
      else (.ok (searchAllPlatforms craigslistOutcome redditOutcome, now), db)

/-- `markNotificationRead`: rejects a missing `context.auth`, then runs
`update({ read: true, readAt: serverTimestamp() })` on the document named by
`notificationId`.  Firestore's `update` rejects on a nonexistent document,
which the `catch` maps to an `internal` error.  The caller's identity
(`callerUid`, available in `context.auth`) is never consulted: no comparison
with the notification's `userId` occurs. -/
def markNotificationRead (auth : Bool) (callerUid notificationId : String)
    (now : Int) (db : Db) : Except HttpsErrorCode Bool × Db :=
  if !auth then (.error .unauthenticated, db)
  else if db.notifications.any fun n => n.id == notificationId then
    (.ok true,
      { db with
        notifications := db.notifications.map fun n =>
          if n.id == notificationId then { n with read := true, readAt := some now }
          else n })
  else (.error .internal, db)

/-! ## Claim theorems -/

/-- C1: for every pair of connector result lists, the aggregator output is a
sublist of the concatenation (Craigslist results before Reddit results, in
connector invocation order), its links are pairwise distinct, every input
link is represented, and each output entry is exactly the earliest-seen
input entry with its link (so the first occurrence's field values win). -/
theorem searchAllPlatforms_dedup (cl rd : List SearchResult) :
    List.Sublist (searchAllPlatforms (.ok cl) (.ok rd)) (cl ++ rd) ∧
    ((searchAllPlatforms (.ok cl) (.ok rd)).map SearchResult.link).Nodup ∧
    (∀ r ∈ cl ++ rd, ∃ s ∈ searchAllPlatforms (.ok cl) (.ok rd), s.link = r.link) ∧
    (∀ s ∈ searchAllPlatforms (.ok cl) (.ok rd),
      (cl ++ rd).find? (fun t => t.link == s.link) = some s) := by
  refine ⟨keepFirstByLink_sublist [] (cl ++ rd),
    keepFirstByLink_links_nodup [] (cl ++ rd), ?_, ?_⟩
  · intro r hr
    rcases keepFirstByLink_covers [] (cl ++ rd) r hr with h | h
    · simp at h
    · exact h
  · intro s hs
    exact (keepFirstByLink_spec [] (cl ++ rd) s hs).2

def rsltA : SearchResult :=
  { title := "A", price := "$1", source := "Craigslist", link := "LA" }

def rsltB : SearchResult :=
  { title := "B", price := "$2", source := "Craigslist", link := "LB" }

def rsltB2 : SearchResult :=
  { title := "B duplicate", price := "$9", source := "Reddit r/books", link := "LB" }

/-- Witness for C1 at concrete input: the Reddit copy of link "LB" is
represented in the output, and the output keeps only the earlier Craigslist
copy's fields. -/
theorem searchAllPlatforms_dedup_witness :
    (∃ s ∈ searchAllPlatforms (.ok [rsltA, rsltB]) (.ok [rsltB2]), s.link = rsltB2.link) ∧
    searchAllPlatforms (.ok [rsltA, rsltB]) (.ok [rsltB2]) = [rsltA, rsltB] :=
  ⟨(searchAllPlatforms_dedup [rsltA, rsltB] [rsltB2]).2.2.1 rsltB2 (by decide),
    by decide⟩

/-- C2: a book whose `lastSearched` is strictly later than `now - 6h` is
skipped (the aggregator is not invoked and `lastSearched` is untouched); a
book with `lastSearched` absent or at/before `now - 6h` is searched. -/
theorem dailyBookSearch_throttle (ls : Option Int) (now : Int)
    (searchStep : Except Unit (List SearchResult))
    (emailStep saveStep : List SearchResult → Except Unit Unit) :
    (∀ t, ls = some t → now - sixHoursMs < t →
      (processBook ls now searchStep emailStep saveStep).invokedSearch = false ∧
      (processBook ls now searchStep emailStep saveStep).lastSearched = ls) ∧
    ((ls = none ∨ ∃ t, ls = some t ∧ t ≤ now - sixHoursMs) →
      (processBook ls now searchStep emailStep saveStep).invokedSearch = true) := by
  constructor
  · rintro t rfl ht
    have hskip : shouldSkip (some t) now = true := by
      simp [shouldSkip, ht]
    simp [processBook, hskip]
  · intro h
    have hskip : shouldSkip ls now = false := by
      rcases h with rfl | ⟨t, rfl, ht⟩
      · rfl
      · simp [shouldSkip]
        omega
    rw [processBook.eq_def, hskip]
    simp only [Bool.false_eq_true, if_false]
    cases searchStep with
    | error e => rfl
    | ok results =>
      dsimp only
      by_cases hr : results.length > 0
      · rw [if_pos hr]
        cases emailStep results with
        | error e => rfl
        | ok u =>
          dsimp only
          cases saveStep results with
          | error e => rfl
          | ok u => rfl
      · rw [if_neg hr]

/-- Witness for C2: a book searched 100ms ago (now = 0) is skipped; a book
searched exactly 6h ago is searched again. -/
theorem dailyBookSearch_throttle_witness :
    (processBook (some 100) 0 (.ok []) (fun _ => .ok ()) (fun _ => .ok ())).invokedSearch
        = false ∧
    (processBook (some (-21600000)) 0 (.ok []) (fun _ => .ok ()) (fun _ => .ok ())).invokedSearch
        = true :=
  ⟨((dailyBookSearch_throttle (some 100) 0 (.ok []) (fun _ => .ok ())
      (fun _ => .ok ())).1 100 rfl (by decide)).1,
    (dailyBookSearch_throttle (some (-21600000)) 0 (.ok []) (fun _ => .ok ())
      (fun _ => .ok ())).2 (Or.inr ⟨-21600000, rfl, by decide⟩)⟩

def rsltX : SearchResult :=
  { title := "X", price := "$5", source := "Craigslist", link := "LX" }

/-- C3 counterexample: a book with no `lastSearched` (so it passes the
throttle and the aggregator is invoked) whose email step throws a handled,
logged error does NOT get `lastSearched` advanced — the update at lines
89-91 sits after `sendEmailToUser` inside the same `try`, so the per-book
`catch` skips it. -/
theorem dailyBookSearch_update_skipped_on_failure :
    shouldSkip none 0 = false ∧
    (processBook none 0 (.ok [rsltX]) (fun _ => .error ()) fun _ => .ok ()).invokedSearch
        = true ∧
    (processBook none 0 (.ok [rsltX]) (fun _ => .error ()) fun _ => .ok ()).lastSearched
        = none :=
  ⟨rfl, rfl, rfl⟩

/-- C3 amended: for a book that passes the throttle, `lastSearched` is
advanced to the current timestamp exactly when every step that runs
resolves (the search resolves and, when results are nonempty, both the
email and the notification save resolve); a handled failure in the search,
email, or save step leaves `lastSearched` unchanged. -/
theorem dailyBookSearch_update_on_success (ls : Option Int) (now : Int)
    (searchStep : Except Unit (List SearchResult))
    (emailStep saveStep : List SearchResult → Except Unit Unit)
    (hpass : shouldSkip ls now = false) :
    (∀ results, searchStep = .ok results →
      (results = [] →
        (processBook ls now searchStep emailStep saveStep).lastSearched = some now) ∧
      (results ≠ [] → emailStep results = .ok () → saveStep results = .ok () →
        (processBook ls now searchStep emailStep saveStep).lastSearched = some now) ∧
      (results ≠ [] → emailStep results = .error () →
        (processBook ls now searchStep emailStep saveStep).lastSearched = ls) ∧
      (results ≠ [] → saveStep results = .error () →
        (processBook ls now searchStep emailStep saveStep).lastSearched = ls)) ∧
    (searchStep = .error () →
      (processBook ls now searchStep emailStep saveStep).lastSearched = ls) := by
  constructor
  · rintro results rfl
    refine ⟨?_, ?_, ?_, ?_⟩
    · rintro rfl
      simp [processBook, hpass]
    · intro hne hem hsv
      have hl : results.length > 0 := List.length_pos.mpr hne
      simp [processBook, hpass, hl, hem, hsv]
    · intro hne hem
      have hl : results.length > 0 := List.length_pos.mpr hne
      simp [processBook, hpass, hl, hem]
    · intro hne hsv
      have hl : results.length > 0 := List.length_pos.mpr hne
      cases hem : emailStep results with
      | error e => simp [processBook, hpass, hl, hem]
      | ok u => simp [processBook, hpass, hl, hem, hsv]
  · rintro rfl
    simp [processBook, hpass]

/-- Witness for C3's amended statement: with all steps succeeding the
timestamp advances. -/
theorem dailyBookSearch_update_on_success_witness :
    shouldSkip none 7 = false ∧
    (processBook none 7 (.ok [rsltX]) (fun _ => .ok ()) fun _ => .ok ()).lastSearched
        = some 7 :=
  ⟨rfl,
    ((dailyBookSearch_update_on_success none 7 (.ok [rsltX]) (fun _ => .ok ())
        (fun _ => .ok ()) rfl).1 [rsltX] rfl).2.1 (by decide) rfl rfl⟩

/-- C4: when the aggregator resolves with an empty list for a book that
passed the throttle, no email is sent and no notification is persisted, but
`lastSearched` still advances to the current timestamp. -/
theorem dailyBookSearch_zero_result_suppression (ls : Option Int) (now : Int)
    (emailStep saveStep : List SearchResult → Except Unit Unit)
    (hpass : shouldSkip ls now = false) :
    (processBook ls now (.ok []) emailStep saveStep).emailSent = false ∧
    (processBook ls now (.ok []) emailStep saveStep).persisted = [] ∧
    (processBook ls now (.ok []) emailStep saveStep).lastSearched = some now ∧
    (processBook ls now (.ok []) emailStep saveStep).invokedSearch = true := by
  simp [processBook, hpass]

/-- Witness for C4 at concrete input. -/
theorem dailyBookSearch_zero_result_suppression_witness :
    shouldSkip (some (-30000000)) 0 = false ∧
    (processBook (some (-30000000)) 0 (.ok []) (fun _ => .ok ()) fun _ => .ok ()).emailSent
        = false ∧
    (processBook (some (-30000000)) 0 (.ok []) (fun _ => .ok ()) fun _ => .ok ()).lastSearched
        = some 0 :=
  ⟨by decide,
    (dailyBookSearch_zero_result_suppression (some (-30000000)) 0 (fun _ => .ok ())
      (fun _ => .ok ()) (by decide)).1,
    (dailyBookSearch_zero_result_suppression (some (-30000000)) 0 (fun _ => .ok ())
      (fun _ => .ok ()) (by decide)).2.2.1⟩

/-- At least one term variant's request threw. -/
def hasErrorResponse (responses : List (Except Unit (Option (List RedditPost)))) : Bool :=
  responses.any fun r =>
    match r with
    | .error _ => true
    | .ok _ => false

theorem collectRedditResults_error (responses : List (Except Unit (Option (List RedditPost))))
    (h : hasErrorResponse responses = true) :
    ∃ e, collectRedditResults responses = .error e := by
  induction responses with
  | nil => simp [hasErrorResponse] at h
  | cons head rest ih =>
    cases head with
    | error e => exact ⟨e, rfl⟩
    | ok o =>
      have h' : hasErrorResponse rest = true := by
        simpa [hasErrorResponse] using h
      obtain ⟨e, he⟩ := ih h'
      cases o with
      | none => exact ⟨e, by rw [collectRedditResults]; exact he⟩
      | some posts => exact ⟨e, by rw [collectRedditResults, he]⟩

/-- The forum connector's output always has pairwise distinct links (it is
deduplicated and capped before being returned). -/
theorem searchReddit_links_nodup (responses : List (Except Unit (Option (List RedditPost)))) :
    ((searchReddit responses).map SearchResult.link).Nodup := by
  rw [searchReddit.eq_def]
  cases collectRedditResults responses with
  | error e => simp
  | ok results =>
    dsimp only
    rw [List.map_take]
    exact (keepFirstByLink_links_nodup [] results).sublist
      (List.take_sublist 5 ((dedupeByLink results).map SearchResult.link))

/-- C5: each connector maps any internal failure to `[]` rather than
propagating it, and a thrown connector is indistinguishable at the
aggregator from one that returned no results: the other connector's results
survive (every link of the healthy connector is represented, and for the
already-deduplicated forum connector the output is exactly its result list,
unchanged). -/
theorem connector_fault_isolation :
    (∀ q, searchCraigslist q (.error ()) = []) ∧
    (∀ responses, hasErrorResponse responses = true → searchReddit responses = []) ∧
    (∀ rd, searchAllPlatforms (.error ()) rd = searchAllPlatforms (.ok []) rd) ∧
    (∀ cl, searchAllPlatforms cl (.error ()) = searchAllPlatforms cl (.ok [])) ∧
    (∀ cl : List SearchResult, ∀ r ∈ cl,
      ∃ s ∈ searchAllPlatforms (.ok cl) (.error ()), s.link = r.link) ∧
    (∀ responses, searchAllPlatforms (.error ()) (.ok (searchReddit responses))
      = searchReddit responses) := by
  refine ⟨fun _ => rfl, ?_, fun _ => rfl, fun _ => rfl, ?_, ?_⟩
  · intro responses h
    obtain ⟨e, he⟩ := collectRedditResults_error responses h
    rw [searchReddit.eq_def, he]
  · intro cl r hr
    have hmem : r ∈ cl ++ [] := List.mem_append.mpr (Or.inl hr)
    rcases keepFirstByLink_covers [] (cl ++ []) r hmem with h | h
    · simp at h
    · exact h
  · intro responses
    have h : searchAllPlatforms (.error ()) (.ok (searchReddit responses))
        = dedupeByLink (searchReddit responses) := rfl
    rw [h]
    exact dedupeByLink_eq_self _ (searchReddit_links_nodup responses)

/-- Witness for C5: a thrown forum request yields `[]`, and the HTML
connector's result survives a thrown forum connector. -/
theorem connector_fault_isolation_witness :
    hasErrorResponse [(Except.error () : Except Unit (Option (List RedditPost)))] = true ∧
    searchReddit [(Except.error () : Except Unit (Option (List RedditPost)))] = [] ∧
    (∃ s ∈ searchAllPlatforms (.ok [rsltA]) (.error ()), s.link = rsltA.link) :=
  ⟨by decide,
    connector_fault_isolation.2.1 [(Except.error () : Except Unit (Option (List RedditPost)))]
      (by decide),
    connector_fault_isolation.2.2.2.2.1 [rsltA] rsltA (by decide)⟩

/-- Deleting exactly the ids of a prefix from a list whose suffix carries
none of those ids leaves the suffix. -/
theorem filter_not_seen_ids (pre post : List NotificationRec)
    (hdisj : ∀ n ∈ post, ∀ d ∈ pre, d.id ≠ n.id) :
    (pre ++ post).filter (fun n => !(pre.any fun d => d.id == n.id)) = post := by
  rw [List.filter_append]
  have h1 : pre.filter (fun n => !(pre.any fun d => d.id == n.id)) = [] := by
    rw [List.filter_eq_nil_iff]
    intro a ha
    have hany : (pre.any fun d => d.id == a.id) = true :=
      List.any_eq_true.mpr ⟨a, ha, beq_self_eq_true a.id⟩
    simp [hany]
  have h2 : post.filter (fun n => !(pre.any fun d => d.id == n.id)) = post := by
    rw [List.filter_eq_self]
    intro a ha
    have hany : (pre.any fun d => d.id == a.id) = false := by
      rw [List.any_eq_false]
      intro d hd hb
      exact hdisj a ha d hd (beq_iff_eq.mp hb)
    simp [hany]
  rw [h1, h2, List.nil_append]

/-- C6: one sweep invocation deletes `min 500 k` of the `k` notifications
older than the 30-day cutoff (and nothing younger); the eligible records
that persist are exactly those beyond the first 500, so 600 eligible
records leave exactly 500 deleted and 100 surviving until a later run. -/
theorem cleanup_retention_cap (now : Int) (store : List NotificationRec)
    (hnd : (store.map NotificationRec.id).Nodup) :
    (cleanupOldNotifications now store).2.length
      = min 500 (store.filter fun n => decide (n.createdAt < now - thirtyDaysMs)).length ∧
    (∀ d ∈ (cleanupOldNotifications now store).2, d.createdAt < now - thirtyDaysMs) ∧
    ((cleanupOldNotifications now store).1.filter
        fun n => decide (n.createdAt < now - thirtyDaysMs))
      = (store.filter fun n => decide (n.createdAt < now - thirtyDaysMs)).drop 500 ∧
    ((store.filter fun n => decide (n.createdAt < now - thirtyDaysMs)).length = 600 →
      (cleanupOldNotifications now store).2.length = 500 ∧
      ((cleanupOldNotifications now store).1.filter
          fun n => decide (n.createdAt < now - thirtyDaysMs)).length = 100) := by
  set E := store.filter fun n => decide (n.createdAt < now - thirtyDaysMs) with hE
  have hold : ∀ d ∈ E, d.createdAt < now - thirtyDaysMs := by
    intro d hd
    rw [hE] at hd
    exact of_decide_eq_true (List.mem_filter.mp hd).2
  have hndE : (E.map NotificationRec.id).Nodup := by
    rw [hE]
    exact hnd.sublist ((List.filter_sublist store).map NotificationRec.id)
  have hsplit : E.take 500 ++ E.drop 500 = E := List.take_append_drop 500 E
  have hndE2 : ((E.take 500).map NotificationRec.id
      ++ (E.drop 500).map NotificationRec.id).Nodup := by
    rw [← List.map_append, hsplit]
    exact hndE
  have hdisj := (List.nodup_append.mp hndE2).2.2
  have hdisj' : ∀ n ∈ E.drop 500, ∀ d ∈ E.take 500, d.id ≠ n.id := by
    intro n hn d hd he
    refine hdisj (List.mem_map_of_mem NotificationRec.id hd) ?_
    rw [he]
    exact List.mem_map_of_mem NotificationRec.id hn
  have hmain : E.filter (fun n => !((E.take 500).any fun d => d.id == n.id)) = E.drop 500 := by
    have h := filter_not_seen_ids (E.take 500) (E.drop 500) hdisj'
    rwa [hsplit] at h
  have key : (cleanupOldNotifications now store).2 = E.take 500 ∧
      ((cleanupOldNotifications now store).1.filter
        fun n => decide (n.createdAt < now - thirtyDaysMs)) = E.drop 500 := by
    by_cases hemp : (E.take 500).isEmpty
    · have hfe : E.take 500 = [] := List.isEmpty_iff.mp hemp
      have hmin : min 500 E.length = 0 := by
        rw [← List.length_take 500 E, hfe]
        rfl
      have hE0 : E = [] := List.length_eq_zero.mp (by omega)
      have hcl : cleanupOldNotifications now store = (store, []) := by
        simp only [cleanupOldNotifications]
        rw [← hE, if_pos hemp]
      constructor
      · rw [hcl, hfe]
      · rw [hcl]
        dsimp only
        rw [← hE, hE0]
        rfl
    · have hcl : cleanupOldNotifications now store
          = (store.filter fun n => !((E.take 500).any fun d => d.id == n.id), E.take 500) := by
        simp only [cleanupOldNotifications]
        rw [← hE, if_neg hemp]
      constructor
      · rw [hcl]
      · rw [hcl]
        dsimp only
        rw [List.filter_filter]
        rw [List.filter_congr
          (fun a _ => Bool.and_comm (decide (a.createdAt < now - thirtyDaysMs))
            (!((E.take 500).any fun d => d.id == a.id)))]
        rw [← List.filter_filter, ← hE]
        exact hmain
  obtain ⟨k2, k3⟩ := key
  have h1 : (cleanupOldNotifications now store).2.length = min 500 E.length := by
    rw [k2, List.length_take]
  refine ⟨h1, ?_, k3, ?_⟩
  · intro d hd
    rw [k2] at hd
    exact hold d (List.mem_of_mem_take hd)
  · intro h600
    constructor
    · rw [h1, h600]
      omega
    · rw [k3, List.length_drop, h600]

def demoStore : List NotificationRec :=
  [{ id := 0, createdAt := 0 }, { id := 1, createdAt := 9000000 },
    { id := 2, createdAt := 5 }]

def demoNow : Int := 2600000000

/-- Witness for C6 at a concrete store: two of three records are past the
cutoff, and both are deleted. -/
theorem cleanup_retention_cap_witness :
    (demoStore.map NotificationRec.id).Nodup ∧
    (cleanupOldNotifications demoNow demoStore).2.length
      = min 500 (demoStore.filter fun n => decide (n.createdAt < demoNow - thirtyDaysMs)).length :=
  ⟨by decide, (cleanup_retention_cap demoNow demoStore (by decide)).1⟩

/-- C7: the manual search endpoint rejects a missing `context.auth` with
the `unauthenticated` code and a missing or empty title with the distinct
`invalid-argument` code, in each case with a result independent of the
connectors (no search is performed); a successful call returns the
aggregator output plus the timestamp, and in every branch the Firestore
state is returned unchanged (no notification persisted, no `lastSearched`
update). -/
theorem searchBook_validation_and_readonly :
    (∀ title authorArg now cl rd db,
      searchBook false title authorArg now cl rd db = (.error .unauthenticated, db)) ∧
    (∀ authorArg now cl rd db,
      searchBook true none authorArg now cl rd db = (.error .invalidArgument, db)) ∧
    (∀ authorArg now cl rd db,
      searchBook true (some "") authorArg now cl rd db = (.error .invalidArgument, db)) ∧
    (∀ t authorArg now cl rd db, t ≠ "" →
      searchBook true (some t) authorArg now cl rd db
        = (.ok (searchAllPlatforms cl rd, now), db)) ∧
    (∀ auth title authorArg now cl rd db,
      (searchBook auth title authorArg now cl rd db).2 = db) ∧
    (HttpsErrorCode.unauthenticated ≠ HttpsErrorCode.invalidArgument ∧
      HttpsErrorCode.invalidArgument ≠ HttpsErrorCode.internal ∧
      HttpsErrorCode.unauthenticated ≠ HttpsErrorCode.internal) := by
  refine ⟨fun _ _ _ _ _ _ => rfl, fun _ _ _ _ _ => rfl, fun _ _ _ _ _ => rfl,
    ?_, ?_, by decide⟩
  · intro t authorArg now cl rd db ht
    simp [searchBook, ht]
  · intro auth title authorArg now cl rd db
    cases auth with
    | false => rfl
    | true =>
      cases title with
      | none => rfl
      | some t =>
        by_cases ht : t = "" <;> simp [searchBook, ht]

/-- Witness for C7: a nonempty title on an authenticated call succeeds and
leaves the state untouched. -/
theorem searchBook_validation_witness :
    "Dune" ≠ "" ∧
    searchBook true (some "Dune") none 5 (.ok [rsltA]) (.ok [])
        { books := [], notifications := [] }
      = (.ok (searchAllPlatforms (.ok [rsltA]) (.ok []), 5),
          { books := [], notifications := [] }) :=
  ⟨by decide,
    searchBook_validation_and_readonly.2.2.2.1 "Dune" none 5 (.ok [rsltA]) (.ok [])
      { books := [], notifications := [] } (by decide)⟩

theorem rowResult_title (q : String) (row : ResultRow) (s : SearchResult)
    (h : rowResult q row = some s) :
    relevantTitle q row.title = true ∧ s.title = row.title := by
  by_cases hr : relevantTitle q row.title
  · rw [rowResult, if_pos hr] at h
    refine ⟨hr, ?_⟩
    injection h with h'
    rw [← h']
  · rw [rowResult, if_neg hr] at h
    cases h

def couchRow : ResultRow :=
  { title := "Red Couch for sale", price := "$50", link := some "/fur/1", location := "nyc" }

def duneRow : ResultRow :=
  { title := "Dune paperback book", price := "$10", link := some "/books/2", location := "" }

/-- C8: among the first 8 parsed rows, a row is represented in the HTML
connector's output exactly when its lowercased title contains "book",
"novel", "textbook" or a token of the query; in particular, with query
"Dune", a row titled "Red Couch for sale" is excluded and one titled
"Dune paperback book" is included. -/
theorem craigslist_relevance_filter :
    (∀ q rows row, row ∈ rows.take 8 →
      ((∃ s ∈ searchCraigslist q (.ok rows), s.title = row.title)
        ↔ relevantTitle q row.title = true)) ∧
    searchCraigslist "Dune" (.ok [couchRow]) = [] ∧
    (searchCraigslist "Dune" (.ok [duneRow])).map SearchResult.title
      = ["Dune paperback book"] := by
  refine ⟨?_, by decide, by decide⟩
  intro q rows row hrow
  constructor
  · rintro ⟨s, hs, ht⟩
    obtain ⟨row', hrow', hres⟩ := List.mem_filterMap.mp hs
    obtain ⟨hrel, htitle⟩ := rowResult_title q row' s hres
    have he : row'.title = row.title := by rw [← htitle, ht]
    rw [← he]
    exact hrel
  · intro hrel
    obtain ⟨s, hs⟩ : ∃ s, rowResult q row = some s := by
      rw [rowResult, if_pos hrel]
      exact ⟨_, rfl⟩
    exact ⟨s, List.mem_filterMap.mpr ⟨row, hrow, hs⟩, (rowResult_title q row s hs).2⟩

/-- Witness for C8: the "Dune paperback book" row is inside the 8-row
window and is represented in the output. -/
theorem craigslist_relevance_filter_witness :
    duneRow ∈ [duneRow].take 8 ∧
    (∃ s ∈ searchCraigslist "Dune" (.ok [duneRow]), s.title = duneRow.title) :=
  ⟨by decide,
    (craigslist_relevance_filter.1 "Dune" [duneRow] duneRow (by decide)).mpr (by decide)⟩

/-- A post delivered in some term variant's successfully parsed response. -/
def postInResponses (p : RedditPost)
    (responses : List (Except Unit (Option (List RedditPost)))) : Prop :=
  ∃ posts, Except.ok (some posts) ∈ responses ∧ p ∈ posts

theorem collectRedditResults_sound (responses : List (Except Unit (Option (List RedditPost))))
    (l : List SearchResult) (h : collectRedditResults responses = .ok l) :
    ∀ r ∈ l, ∃ p, postInResponses p responses ∧ postResult p = some r := by
  induction responses generalizing l with
  | nil =>
    rw [collectRedditResults] at h
    injection h with h'
    subst h'
    intro r hr
    cases hr
  | cons head rest ih =>
    cases head with
    | error e =>
      rw [collectRedditResults] at h
      cases h
    | ok o =>
      cases o with
      | none =>
        rw [collectRedditResults] at h
        intro r hr
        obtain ⟨p, hpin, hpr⟩ := ih l h r hr
        obtain ⟨posts, hmem, hp⟩ := hpin
        exact ⟨p, ⟨posts, List.mem_cons_of_mem _ hmem, hp⟩, hpr⟩
      | some posts =>
        rw [collectRedditResults] at h
        cases hrest : collectRedditResults rest with
        | error e =>
          rw [hrest] at h
          cases h
        | ok tail =>
          rw [hrest] at h
          injection h with h'
          subst h'
          intro r hr
          rcases List.mem_append.mp hr with hr1 | hr2
          · obtain ⟨p, hp, hpr⟩ := List.mem_filterMap.mp hr1
            exact ⟨p, ⟨posts, List.mem_cons_self _ _, hp⟩, hpr⟩
          · obtain ⟨p, hpin, hpr⟩ := ih tail hrest r hr2
            obtain ⟨ps, hmem, hp⟩ := hpin
            exact ⟨p, ⟨ps, List.mem_cons_of_mem _ hmem, hp⟩, hpr⟩

theorem postResult_flags (p : RedditPost) (r : SearchResult) (h : postResult p = some r) :
    p.over_18 = false ∧ p.subreddit_type = "public" := by
  by_cases hs : sellingPost p = true
  · have hs' := hs
    simp only [sellingPost, Bool.and_eq_true, Bool.not_eq_true', beq_iff_eq] at hs'
    exact ⟨hs'.1.2, hs'.2⟩
  · rw [postResult, if_neg hs] at h
    cases h

/-- C9: every entry of the forum connector's output is the normalization of
some delivered post that is not flagged adult (`over_18 = false`) and comes
from a public subreddit — so no adult-flagged or non-public post ever
appears in the output, whether or not it matches the sale keywords. -/
theorem reddit_content_filter (responses : List (Except Unit (Option (List RedditPost)))) :
    ∀ r ∈ searchReddit responses,
      ∃ p, postInResponses p responses ∧ p.over_18 = false ∧
        p.subreddit_type = "public" ∧ postResult p = some r := by
  intro r hr
  cases hc : collectRedditResults responses with
  | error e =>
    rw [searchReddit.eq_def, hc] at hr
    cases hr
  | ok l =>
    rw [searchReddit.eq_def, hc] at hr
    dsimp only at hr
    have hr1 : r ∈ dedupeByLink l := List.mem_of_mem_take hr
    have hr2 : r ∈ l := (keepFirstByLink_sublist [] l).subset hr1
    obtain ⟨p, hpin, hpr⟩ := collectRedditResults_sound responses l hc r hr2
    obtain ⟨f1, f2⟩ := postResult_flags p r hpr
    exact ⟨p, hpin, f1, f2, hpr⟩

def demoPost : RedditPost :=
  { title := "Selling Dune hardcover", selftext := some "Dune for sale $12 obo",
    over_18 := false, subreddit_type := "public", subreddit := "books",
    permalink := "/r/books/comments/1", author := "alice" }

def demoRedditResult : SearchResult :=
  { title := "Selling Dune hardcover", price := "$12", source := "Reddit r/books",
    condition := none, link := "https://reddit.com/r/books/comments/1",
    seller := some ("/u/alice") }

/-- Witness for C9: a concrete kept post appears in the output, and the
theorem produces its originating clean post. -/
theorem reddit_content_filter_witness :
    demoRedditResult ∈ searchReddit [Except.ok (some [demoPost])] ∧
    (∃ p, postInResponses p [Except.ok (some [demoPost])] ∧ p.over_18 = false ∧
      p.subreddit_type = "public" ∧ postResult p = some demoRedditResult) :=
  ⟨by decide,
    reddit_content_filter [Except.ok (some [demoPost])] demoRedditResult (by decide)⟩

/-- C10: for an authenticated caller the mark-read endpoint's outcome is
independent of the caller's identity; on any notification present in the
store — whoever owns it — it returns success and stores the notification
with `read = true` and a `readAt` timestamp.  No comparison between the
caller and the notification's `userId` exists. -/
theorem markNotificationRead_no_ownership_check (u u' nid : String) (now : Int) (db : Db)
    (n : StoredNotification) (hn : n ∈ db.notifications) (hid : n.id = nid) :
    markNotificationRead true u nid now db = markNotificationRead true u' nid now db ∧
    (markNotificationRead true u nid now db).1 = Except.ok true ∧
    { n with read := true, readAt := some now }
      ∈ (markNotificationRead true u nid now db).2.notifications := by
  have hany : (db.notifications.any fun m => m.id == nid) = true :=
    List.any_eq_true.mpr ⟨n, hn, by rw [hid]; exact beq_self_eq_true nid⟩
  refine ⟨rfl, ?_, ?_⟩
  · simp [markNotificationRead, hany]
  · simp only [markNotificationRead, Bool.not_true, Bool.false_eq_true, if_false,
      hany, if_true]
    refine List.mem_map.mpr ⟨n, hn, ?_⟩
    simp [hid]

def bobNotification : StoredNotification :=
  { id := "n1", userId := "bob", read := false, readAt := none }

def demoDb : Db := { books := [], notifications := [bobNotification] }

/-- Witness for C10: caller "alice" successfully marks a notification owned
by "bob" as read. -/
theorem markNotificationRead_no_ownership_check_witness :
    bobNotification ∈ demoDb.notifications ∧ bobNotification.id = "n1" ∧
    bobNotification.userId ≠ "alice" ∧
    (markNotificationRead true "alice" "n1" 42 demoDb).1 = Except.ok true :=
  ⟨by decide, rfl, by decide,
    (markNotificationRead_no_ownership_check "alice" "carol" "n1" 42 demoDb
      bobNotification (by decide) rfl).2.1⟩

end BookTracker
